import Mathlib

/-!
Shallow embedding of the adaptive rate-limiting HTTP client found in
`utils/rate_limit.go` (package `utils`) of the api-requester repository.

Modelling conventions:
* Absolute times and durations are integers counting nanoseconds, matching
  Go's `time.Duration` unit.  Absolute times are anchored at the Unix epoch.
* Go duration arithmetic is 64-bit two's-complement: products and shifts wrap
  (`wrap64`), and `time.Time.Sub` (hence `time.Until` and `time.Since`)
  saturates at the int64 bounds (`sat64`).
* `http.Header.Get` returns the empty string for an absent header, exactly as
  the Go code assumes, so a header value is a plain `String` and `""` means
  the header is absent.
* The underlying HTTP transport (`rl.Client.Do`) is modelled as a function
  from the attempt number to a transport result; a call either fails with a
  transport-level error or yields a response (status code plus headers).
* Sleeping advances the modelled clock by exactly the requested duration
  (`time.Sleep` of a non-positive duration returns immediately); all other
  work is instantaneous in the model.
* `strconv.Atoi` / `strconv.ParseInt(_, 10, 64)` (identical on a 64-bit
  platform) are modelled by `goAtoi`; `strings.TrimSpace` by `goTrimSpace`
  (restricted to the ASCII space characters, which is all the claims need).
* `http.ParseTime` belongs to the Go standard library, not to this
  repository; it is therefore a parameter `pt : String → Option Int`
  returning the parsed absolute time in nanoseconds when parsing succeeds.
* The mutex only serialises access and is invisible in this sequential
  model; the `fmt.Printf` logging and `resp.Body.Close()` calls have no
  bearing on the modelled state and are dropped.
-/

/-- Number of nanoseconds in one second (`time.Second`). -/
def nsPerSecond : Int := 1000000000

/-- `http.StatusTooManyRequests`. -/
def statusTooManyRequests : Int := 429

/-- The zero `time.Time` (January 1, year 1 UTC) expressed in Unix
nanoseconds: `-62135596800` seconds before the epoch.  `t.IsZero()` holds
exactly when `t` equals this instant. -/
def goZeroTime : Int := -62135596800 * nsPerSecond

/-- Two's-complement wrap-around of signed 64-bit integer arithmetic. -/
def wrap64 (x : Int) : Int :=
  (x + 9223372036854775808) % 18446744073709551616 - 9223372036854775808

/-- Saturation at the int64 bounds, the behaviour of `time.Time.Sub`. -/
def sat64 (x : Int) : Int :=
  if x < -9223372036854775808 then -9223372036854775808
  else if 9223372036854775807 < x then 9223372036854775807
  else x

/-- Go's `1 << attempt` on a 64-bit `int`: shifts of 64 or more bits shift
the set bit out entirely, and `1 << 63` wraps to the minimum int64. -/
def goShl1 (a : Nat) : Int :=
  if a < 64 then wrap64 (2 ^ a) else 0

/-- Decimal digit value of a character, when it is a digit. -/
def digitVal? (c : Char) : Option Nat :=
  if '0' ≤ c ∧ c ≤ '9' then some (c.toNat - '0'.toNat) else none

/-- Accumulate a decimal number over a list of characters; fails on the
first non-digit. -/
def parseDigits : List Char → Nat → Option Nat
  | [], acc => some acc
  | c :: cs, acc =>
    match digitVal? c with
    | some d => parseDigits cs (acc * 10 + d)
    | none => none

/-- Magnitude-and-sign part of `strconv.ParseInt(s, 10, 64)`: a non-empty
all-digit string, rejected when the value falls outside the int64 range. -/
def goAtoiMag (neg : Bool) (ds : List Char) : Option Int :=
  if ds = [] then none
  else
    match parseDigits ds 0 with
    | none => none
    | some m =>
      if neg then
        if (m : Int) ≤ 9223372036854775808 then some (-(m : Int)) else none
      else
        if (m : Int) ≤ 9223372036854775807 then some (m : Int) else none

/-- `strconv.Atoi` over the character list: optional single sign followed by
at least one digit. -/
def goAtoiChars : List Char → Option Int
  | [] => none
  | '+' :: ds => goAtoiMag false ds
  | '-' :: ds => goAtoiMag true ds
  | ds => goAtoiMag false ds

/-- `strconv.Atoi` = `strconv.ParseInt(s, 10, 0)`; on a 64-bit platform
identical to `strconv.ParseInt(s, 10, 64)`.  Out-of-range values yield an
error (`ErrRange`), modelled as `none`. -/
def goAtoi (s : String) : Option Int := goAtoiChars s.toList

/-- ASCII white-space recognised by `strings.TrimSpace` (the Unicode spaces
it additionally trims never occur in the inputs considered here). -/
def goIsSpace (c : Char) : Bool :=
  c == ' ' || c == '\t' || c == '\n' || c == '\x0b' || c == '\x0c' || c == '\r'

/-- `strings.TrimSpace`: drop leading and trailing white-space. -/
def goTrimSpace (s : String) : String :=
  String.mk (((s.toList.dropWhile goIsSpace).reverse.dropWhile goIsSpace).reverse)

/-- The response headers the client reads.  `http.Header.Get` returns `""`
for a missing header, so `""` denotes absence. -/
structure Headers where
  limit : String
  remaining : String
  reset : String
  retryAfter : String
deriving DecidableEq

/-- The mutable state of `utils.RateLimitClient`.  The `Client` field (the
underlying transport) is passed separately to `Do`, and the mutex is
invisible in this sequential model. -/
structure RateLimitClient where
  MaxRetries : Int
  BaseBackoff : Int
  Limit : Int
  Remaining : Int
  ResetTime : Int
  AutoRateMode : Bool
  DynamicRate : Int
  SafeRate : Int
  LastRequest : Int
deriving DecidableEq

/-- `utils.NewRateLimitClient`: `MaxRetries = 5`, `BaseBackoff = 1s`,
`DynamicRate = 1`, `LastRequest = time.Now().Add(-1 * time.Hour)`; the
remaining fields take the Go zero values. -/
def NewRateLimitClient (now : Int) : RateLimitClient :=
  { MaxRetries := 5
    BaseBackoff := nsPerSecond
    Limit := 0
    Remaining := 0
    ResetTime := goZeroTime
    AutoRateMode := false
    DynamicRate := 1
    SafeRate := 0
    LastRequest := now - 3600 * nsPerSecond }

/-- `(*RateLimitClient).mustWaitBeforeNext`. -/
def RateLimitClient.mustWaitBeforeNext (rl : RateLimitClient) (now : Int) : Bool :=
  if rl.Limit = 0 then false
  else if rl.Remaining > 0 then false
  else if rl.ResetTime = goZeroTime then false
  else decide (now < rl.ResetTime)

/-- `(*RateLimitClient).updateRateLimitTracking`.  Each of the three headers
is parsed independently; `foundHeader` records whether at least one parsed.
`time.Unix(ts, 0)` is `ts` seconds after the epoch. -/
def RateLimitClient.updateRateLimitTracking (rl : RateLimitClient) (h : Headers) :
    RateLimitClient :=
  let p1 : RateLimitClient × Bool :=
    if h.limit ≠ "" then
      match goAtoi h.limit with
      | some n => ({ rl with Limit := n }, true)
      | none => (rl, false)
    else (rl, false)
  let p2 : RateLimitClient × Bool :=
    if h.remaining ≠ "" then
      match goAtoi h.remaining with
      | some n => ({ p1.1 with Remaining := n }, true)
      | none => (p1.1, p1.2)
    else (p1.1, p1.2)
  let p3 : RateLimitClient × Bool :=
    if h.reset ≠ "" then
      match goAtoi h.reset with
      | some ts => ({ p2.1 with ResetTime := ts * nsPerSecond }, true)
      | none => (p2.1, p2.2)
    else (p2.1, p2.2)
  if p3.2 then { p3.1 with AutoRateMode := false }
  else if p3.1.SafeRate = 0 then { p3.1 with AutoRateMode := true }
  else p3.1

/-- The part of `(*RateLimitClient).getWaitTime` after the `Retry-After`
block falls through (both parses failed) or the header is absent. -/
def RateLimitClient.getWaitTimeTail (rl : RateLimitClient) (attempt : Nat) : Int :=
  if rl.SafeRate > 0 then nsPerSecond
  else
    let wait := wrap64 (rl.BaseBackoff * goShl1 attempt)
    if wait > 2 * 60 * nsPerSecond then 2 * 60 * nsPerSecond else wait

/-- `(*RateLimitClient).getWaitTime`.  `time.Duration(sec) * time.Second`
is a wrapping int64 product; `time.Until(t)` is a saturating subtraction. -/
def RateLimitClient.getWaitTime (rl : RateLimitClient) (h : Headers) (attempt : Nat)
    (now : Int) (pt : String → Option Int) : Int :=
  if h.retryAfter ≠ "" then
    match goAtoi (goTrimSpace h.retryAfter) with
    | some sec =>
      let d := wrap64 (sec * nsPerSecond)
      if d ≤ 0 then rl.BaseBackoff else d
    | none =>
      match pt h.retryAfter with
      | some t =>
        let d := sat64 (t - now)
        if d ≤ 0 then rl.BaseBackoff else d
      | none => rl.getWaitTimeTail attempt
  else rl.getWaitTimeTail attempt

/-- `(*RateLimitClient).applyDynamicWait`, returning the updated state and
the duration slept.  `time.Second / time.Duration(currentRate)` divides two
positive int64 values, and `time.Since` saturates; `LastRequest` is set to
the clock reading after the sleep. -/
def RateLimitClient.applyDynamicWait (rl : RateLimitClient) (now : Int) :
    RateLimitClient × Int :=
  let r1 := if rl.SafeRate > 0 then rl.SafeRate else rl.DynamicRate
  let currentRate := if r1 ≤ 0 then 1 else r1
  let minInterval := nsPerSecond / currentRate
  let elapsed := sat64 (now - rl.LastRequest)
  let sleep := if elapsed < minInterval then minInterval - elapsed else 0
  ({ rl with LastRequest := now + sleep }, sleep)

/-- `(*RateLimitClient).adjustDynamicRate`. -/
def RateLimitClient.adjustDynamicRate (rl : RateLimitClient) (hit429 : Bool) :
    RateLimitClient :=
  if rl.SafeRate > 0 then
    { rl with DynamicRate := rl.SafeRate, AutoRateMode := false }
  else if !rl.AutoRateMode then rl
  else if hit429 then
    let n0 := rl.DynamicRate - 1
    let newSafe := if n0 < 1 then 1 else n0
    { rl with SafeRate := newSafe, DynamicRate := newSafe }
  else
    { rl with DynamicRate := rl.DynamicRate + 1 }

/-- Result of one call to the underlying transport (`rl.Client.Do`). -/
inductive TransportResult where
  | err : TransportResult
  | ok (status : Int) (headers : Headers) : TransportResult
deriving DecidableEq

/-- Outcome of `(*RateLimitClient).Do`: the returned response, a propagated
transport error, or the "excedido número máximo de tentativas" error. -/
inductive DoOutcome where
  | success (status : Int) (headers : Headers) : DoOutcome
  | transportErr : DoOutcome
  | exhausted : DoOutcome
deriving DecidableEq

/-- Observable result of `Do`: outcome, number of transport dispatches,
final client state and final clock reading. -/
structure DoResult where
  outcome : DoOutcome
  dispatches : Nat
  state : RateLimitClient
  clock : Int
deriving DecidableEq

/-- `time.Sleep` ignores non-positive durations. -/
def sleepNs (d : Int) : Int := max d 0

/-- The retry loop of `(*RateLimitClient).Do` (`for attempt := 0; attempt <=
rl.MaxRetries; attempt++`), with the remaining iteration count as fuel.
No operation in the loop body modifies `MaxRetries`, so the iteration count
fixed up front agrees with Go's per-iteration bound check. -/
def RateLimitClient.doLoop (t : Nat → TransportResult) (pt : String → Option Int) :
    Nat → Nat → RateLimitClient → Int → DoResult
  | 0, _, s, now => ⟨DoOutcome.exhausted, 0, s, now⟩
  | Nat.succ fuel, attempt, s, now =>
    match t attempt with
    | TransportResult.err => ⟨DoOutcome.transportErr, 1, s, now⟩
    | TransportResult.ok status h =>
      let s1 := s.updateRateLimitTracking h
      if status ≠ statusTooManyRequests then
        let s2 := s1.adjustDynamicRate false
        ⟨DoOutcome.success status h, 1, { s2 with LastRequest := now }, now⟩
      else
        let s2 := s1.adjustDynamicRate true
        let w := s2.getWaitTime h attempt now pt
        let r := RateLimitClient.doLoop t pt fuel (attempt + 1) s2 (now + sleepNs w)
        ⟨r.outcome, r.dispatches + 1, r.state, r.clock⟩

/-- `(*RateLimitClient).Do`: pacer, reset-window gate, then the retry loop. -/
def RateLimitClient.Do (s : RateLimitClient) (t : Nat → TransportResult)
    (pt : String → Option Int) (now : Int) : DoResult :=
  let p := s.applyDynamicWait now
  let s1 := p.1
  let now1 := now + p.2
  let now2 :=
    if s1.mustWaitBeforeNext now1 then
      let w0 := sat64 (s1.ResetTime - now1)
      let w := if w0 < nsPerSecond then nsPerSecond else w0
      now1 + w
    else now1
  RateLimitClient.doLoop t pt (s1.MaxRetries + 1).toNat 0 s1 now2

/-- The state-mutating operations a caller can drive the client through:
header ingestion, cadence adjustment, pacing, and the `LastRequest` stamp
`Do` performs on a successful return. -/
inductive Op where
  | observe (h : Headers) : Op
  | adjust (hit429 : Bool) : Op
  | pace (now : Int) : Op
  | stamp (now : Int) : Op
deriving DecidableEq

/-- One operation applied to the client state. -/
def stepOp (s : RateLimitClient) (op : Op) : RateLimitClient :=
  match op with
  | Op.observe h => s.updateRateLimitTracking h
  | Op.adjust b => s.adjustDynamicRate b
  | Op.pace now => (s.applyDynamicWait now).1
  | Op.stamp now => { s with LastRequest := now }

/-- A state reached from the freshly constructed client by a sequence of
operations. -/
def runOps (now0 : Int) (ops : List Op) : RateLimitClient :=
  ops.foldl stepOp (NewRateLimitClient now0)

/-- Spec wording of §4.2: a header counts as parsed when present and its
value parses as an integer. -/
def headerParsed (v : String) : Bool := v ≠ "" && (goAtoi v).isSome

/-- Spec wording: at least one of the three rate-limit headers parsed. -/
def anyHeaderParsed (h : Headers) : Bool :=
  headerParsed h.limit || headerParsed h.remaining || headerParsed h.reset

/-- Modelled from the spec (§4.1, step 1): the request rate the pacer must
enforce, for comparison against the code. -/
def effectiveRate (s : RateLimitClient) : Int :=
  let r := if s.SafeRate > 0 then s.SafeRate else s.DynamicRate
  if r ≤ 0 then 1 else r

/-! ## Helper lemmas -/

theorem goAtoi_nil : goAtoi "" = none := rfl

theorem goTrimSpace_nil : goTrimSpace "" = "" := rfl

theorem wrap64_eq_self (x : Int) (hlo : -9223372036854775808 ≤ x)
    (hhi : x < 9223372036854775808) : wrap64 x = x := by
  unfold wrap64
  rw [Int.emod_eq_of_lt (by omega) (by omega)]
  omega

theorem sat64_eq_self (x : Int) (hlo : -9223372036854775808 ≤ x)
    (hhi : x ≤ 9223372036854775807) : sat64 x = x := by
  unfold sat64
  omega

/-- The header-ingestion routine in closed form: each field is overwritten
exactly when its own header parses, and the discovery flag follows the
`foundHeader` accumulator. -/
theorem updateRateLimitTracking_eq (rl : RateLimitClient) (h : Headers) :
    rl.updateRateLimitTracking h =
      { rl with
        Limit := match goAtoi h.limit with | some n => n | none => rl.Limit,
        Remaining := match goAtoi h.remaining with | some n => n | none => rl.Remaining,
        ResetTime := match goAtoi h.reset with | some ts => ts * nsPerSecond | none => rl.ResetTime,
        AutoRateMode :=
          if anyHeaderParsed h then false
          else if rl.SafeRate = 0 then true else rl.AutoRateMode } := by
  unfold RateLimitClient.updateRateLimitTracking anyHeaderParsed headerParsed
  by_cases hl : h.limit = "" <;> by_cases hr : h.remaining = "" <;> by_cases hq : h.reset = "" <;>
    simp only [hl, hr, hq, goAtoi_nil, ne_eq, not_true_eq_false, not_false_eq_true, if_true,
      if_false, ite_true, ite_false, Bool.false_or, Bool.or_false, decide_True, decide_False,
      Bool.false_and, Bool.true_and, Option.isSome_none, Bool.and_false, Bool.and_true] <;>
  · cases e1 : goAtoi h.limit <;> cases e2 : goAtoi h.remaining <;> cases e3 : goAtoi h.reset <;>
      simp_all <;> split <;> simp_all

theorem updateRateLimitTracking_SafeRate (rl : RateLimitClient) (h : Headers) :
    (rl.updateRateLimitTracking h).SafeRate = rl.SafeRate := by
  rw [updateRateLimitTracking_eq]

theorem updateRateLimitTracking_DynamicRate (rl : RateLimitClient) (h : Headers) :
    (rl.updateRateLimitTracking h).DynamicRate = rl.DynamicRate := by
  rw [updateRateLimitTracking_eq]

theorem stepOp_SafeRate (s : RateLimitClient) (op : Op) (hpos : 0 < s.SafeRate) :
    (stepOp s op).SafeRate = s.SafeRate := by
  cases op with
  | observe h => exact updateRateLimitTracking_SafeRate s h
  | adjust b =>
    simp only [stepOp]
    unfold RateLimitClient.adjustDynamicRate
    rw [if_pos hpos]
  | pace now => rfl
  | stamp now => rfl

theorem stepOp_locked_invariant (s : RateLimitClient) (op : Op)
    (h : 0 < s.SafeRate → s.DynamicRate = s.SafeRate) :
    0 < (stepOp s op).SafeRate → (stepOp s op).DynamicRate = (stepOp s op).SafeRate := by
  cases op with
  | observe hd =>
    simp only [stepOp]
    intro hpos
    rw [updateRateLimitTracking_SafeRate] at hpos
    rw [updateRateLimitTracking_SafeRate, updateRateLimitTracking_DynamicRate]
    exact h hpos
  | adjust b =>
    simp only [stepOp]
    unfold RateLimitClient.adjustDynamicRate
    split_ifs <;> intro hpos <;> simp_all
  | pace now => exact h
  | stamp now => exact h

/-- C1: once `autoDiscovering` holds with `safeRate == 0`, a throttled
adjustment locks `safeRate` at `max(1, dynamicRate − 1)` and copies it into
`dynamicRate`; and once `safeRate` is positive, no operation of the client
(header ingestion, either cadence adjustment, pacing, or the request
timestamp update) ever changes `safeRate` again. -/
theorem adjustDynamicRate_locks_forever (s : RateLimitClient) :
    (s.AutoRateMode = true → s.SafeRate = 0 →
      (s.adjustDynamicRate true).SafeRate = max 1 (s.DynamicRate - 1) ∧
      (s.adjustDynamicRate true).DynamicRate = max 1 (s.DynamicRate - 1)) ∧
    (∀ op : Op, 0 < s.SafeRate → (stepOp s op).SafeRate = s.SafeRate) := by
  constructor
  · intro hA hS
    unfold RateLimitClient.adjustDynamicRate
    rw [if_neg (by omega), if_neg (by simp [hA]), if_pos rfl]
    constructor
    · show (if s.DynamicRate - 1 < 1 then 1 else s.DynamicRate - 1) = max 1 (s.DynamicRate - 1)
      omega
    · show (if s.DynamicRate - 1 < 1 then 1 else s.DynamicRate - 1) = max 1 (s.DynamicRate - 1)
      omega
  · exact fun op => stepOp_SafeRate s op

theorem adjustDynamicRate_locks_forever_witness :
    ((RateLimitClient.adjustDynamicRate
        { NewRateLimitClient 0 with AutoRateMode := true, DynamicRate := 3 } true).SafeRate = 2 ∧
      (RateLimitClient.adjustDynamicRate
        { NewRateLimitClient 0 with AutoRateMode := true, DynamicRate := 3 } true).DynamicRate = 2) ∧
    (stepOp { NewRateLimitClient 0 with SafeRate := 4 } (Op.adjust false)).SafeRate = 4 := by
  constructor
  · have h := (adjustDynamicRate_locks_forever
      { NewRateLimitClient 0 with AutoRateMode := true, DynamicRate := 3 }).1 rfl rfl
    exact ⟨by rw [h.1]; decide, by rw [h.2]; decide⟩
  · exact (adjustDynamicRate_locks_forever
      { NewRateLimitClient 0 with SafeRate := 4 }).2 (Op.adjust false) (by decide)

/-- C2 counterexample: from the fresh client, ingesting a header-free
response and then adjusting for a throttled response reaches a state with
`safeRate == 1 > 0` in which `autoDiscovering` is still `true` — the lock
branch of `adjustDynamicRate` never clears `AutoRateMode`. -/
theorem locked_state_discovering_counterexample :
    0 < (runOps 0 [Op.observe ⟨"", "", "", ""⟩, Op.adjust true]).SafeRate ∧
    (runOps 0 [Op.observe ⟨"", "", "", ""⟩, Op.adjust true]).AutoRateMode = true := by
  decide

/-- C2 (amended): in every state reachable from the freshly constructed
client, `safeRate > 0` implies `dynamicRate == safeRate`; the
`autoDiscovering == false` half of the claimed invariant fails in the state
reached immediately after the locking adjustment. -/
theorem locked_implies_dynamic_eq_safe (now0 : Int) (ops : List Op) :
    0 < (runOps now0 ops).SafeRate →
    (runOps now0 ops).DynamicRate = (runOps now0 ops).SafeRate := by
  suffices h : ∀ s : RateLimitClient, (0 < s.SafeRate → s.DynamicRate = s.SafeRate) →
      0 < (ops.foldl stepOp s).SafeRate →
      (ops.foldl stepOp s).DynamicRate = (ops.foldl stepOp s).SafeRate by
    apply h
    intro hpos
    exact absurd hpos (by simp [NewRateLimitClient])
  induction ops with
  | nil => exact fun s hs => hs
  | cons op rest ih => exact fun s hs => ih (stepOp s op) (stepOp_locked_invariant s op hs)

theorem locked_implies_dynamic_eq_safe_witness :
    (runOps 0 [Op.observe ⟨"", "", "", ""⟩, Op.adjust true, Op.observe ⟨"7", "", "", ""⟩]).DynamicRate =
    (runOps 0 [Op.observe ⟨"", "", "", ""⟩, Op.adjust true, Op.observe ⟨"7", "", "", ""⟩]).SafeRate :=
  locked_implies_dynamic_eq_safe 0 _ (by decide)

/-- C9: whenever the stored `Limit` is `0` — never declared, or declared as
exactly `0` — the reset-window gate reports no wait, whatever `Remaining`
and `ResetTime` hold and whatever the current time is. -/
theorem mustWait_false_of_zero_limit (s : RateLimitClient) (now : Int)
    (h : s.Limit = 0) : s.mustWaitBeforeNext now = false := by
  unfold RateLimitClient.mustWaitBeforeNext
  rw [if_pos h]

theorem mustWait_false_of_zero_limit_witness :
    RateLimitClient.mustWaitBeforeNext
      { NewRateLimitClient 0 with Remaining := -3, ResetTime := 4102444800 * nsPerSecond } 0 =
      false :=
  mustWait_false_of_zero_limit _ 0 rfl

/-- C5: header ingestion parses the three rate-limit headers independently —
each field is overwritten exactly when its own value parses as an integer,
a malformed value for one header never blocks the others — and the
discovery flag is forced false when at least one parsed, forced true when
none parsed and `safeRate == 0`. -/
theorem observe_parses_fields_independently (rl : RateLimitClient) (h : Headers) :
    (∀ n : Int, goAtoi h.limit = some n → (rl.updateRateLimitTracking h).Limit = n) ∧
    (goAtoi h.limit = none → (rl.updateRateLimitTracking h).Limit = rl.Limit) ∧
    (∀ n : Int, goAtoi h.remaining = some n → (rl.updateRateLimitTracking h).Remaining = n) ∧
    (goAtoi h.remaining = none → (rl.updateRateLimitTracking h).Remaining = rl.Remaining) ∧
    (∀ ts : Int, goAtoi h.reset = some ts →
      (rl.updateRateLimitTracking h).ResetTime = ts * nsPerSecond) ∧
    (goAtoi h.reset = none → (rl.updateRateLimitTracking h).ResetTime = rl.ResetTime) ∧
    (anyHeaderParsed h = true → (rl.updateRateLimitTracking h).AutoRateMode = false) ∧
    (anyHeaderParsed h = false → rl.SafeRate = 0 →
      (rl.updateRateLimitTracking h).AutoRateMode = true) := by
  simp only [updateRateLimitTracking_eq]
  refine ⟨?_, ?_, ?_, ?_, ?_, ?_, ?_, ?_⟩ <;> intros <;> simp_all

theorem observe_parses_fields_independently_witness :
    (RateLimitClient.updateRateLimitTracking (NewRateLimitClient 0)
      ⟨"100", "abc", "1700000000", ""⟩).Limit = 100 ∧
    (RateLimitClient.updateRateLimitTracking (NewRateLimitClient 0)
      ⟨"100", "abc", "1700000000", ""⟩).Remaining = 0 ∧
    (RateLimitClient.updateRateLimitTracking (NewRateLimitClient 0)
      ⟨"100", "abc", "1700000000", ""⟩).ResetTime = 1700000000 * nsPerSecond ∧
    (RateLimitClient.updateRateLimitTracking (NewRateLimitClient 0)
      ⟨"100", "abc", "1700000000", ""⟩).AutoRateMode = false := by
  refine ⟨?_, ?_, ?_, ?_⟩
  · exact (observe_parses_fields_independently (NewRateLimitClient 0)
      ⟨"100", "abc", "1700000000", ""⟩).1 100 (by decide)
  · exact (observe_parses_fields_independently (NewRateLimitClient 0)
      ⟨"100", "abc", "1700000000", ""⟩).2.2.2.1 (by decide)
  · exact (observe_parses_fields_independently (NewRateLimitClient 0)
      ⟨"100", "abc", "1700000000", ""⟩).2.2.2.2.1 1700000000 (by decide)
  · exact (observe_parses_fields_independently (NewRateLimitClient 0)
      ⟨"100", "abc", "1700000000", ""⟩).2.2.2.2.2.2.1 (by decide)

theorem two_pow_lt_int64 (a : Nat) (ha : a < 63) : (2 : Int) ^ a < 9223372036854775808 := by
  calc (2 : Int) ^ a ≤ 2 ^ 62 := pow_le_pow_right₀ (by norm_num) (by omega)
  _ < 9223372036854775808 := by norm_num

theorem goShl1_eq (a : Nat) (ha : a < 63) : goShl1 a = 2 ^ a := by
  unfold goShl1
  rw [if_pos (by omega)]
  exact wrap64_eq_self _ (le_trans (by norm_num) (pow_nonneg (by norm_num) a))
    (two_pow_lt_int64 a ha)

theorem retryAfter_ne_of_parse (v : String) (n : Int)
    (hp : goAtoi (goTrimSpace v) = some n) : v ≠ "" := by
  intro he
  rw [he, goTrimSpace_nil, goAtoi_nil] at hp
  cases hp

/-- C6 (amended): with no `Retry-After` header and `safeRate == 0`,
`getWaitTime` at attempt index `i` returns `baseBackoff * 2^i` capped at
2 minutes, provided the product fits in int64 (for the default 1 s base
backoff this means `i ≤ 33`); at larger indices the int64 product wraps and
the wrapped — possibly negative — value is returned uncapped. -/
theorem backoff_capped_within_int64 (h : Headers) (attempt : Nat) (s : RateLimitClient)
    (now : Int) (pt : String → Option Int)
    (hra : h.retryAfter = "") (hsr : s.SafeRate = 0) (hb : 0 ≤ s.BaseBackoff)
    (ha : attempt < 63) (hfit : s.BaseBackoff * 2 ^ attempt < 9223372036854775808) :
    s.getWaitTime h attempt now pt = min (s.BaseBackoff * 2 ^ attempt) 120000000000 := by
  unfold RateLimitClient.getWaitTime
  rw [hra, if_neg (by simp)]
  unfold RateLimitClient.getWaitTimeTail
  rw [if_neg (by omega), goShl1_eq attempt ha]
  have hnn : 0 ≤ s.BaseBackoff * 2 ^ attempt :=
    mul_nonneg hb (pow_nonneg (by norm_num) attempt)
  rw [wrap64_eq_self _ (by omega) hfit]
  have h120 : (2 : Int) * 60 * nsPerSecond = 120000000000 := by norm_num [nsPerSecond]
  rw [h120]
  show (if s.BaseBackoff * 2 ^ attempt > 120000000000 then (120000000000 : Int)
    else s.BaseBackoff * 2 ^ attempt) = min (s.BaseBackoff * 2 ^ attempt) 120000000000
  generalize s.BaseBackoff * 2 ^ attempt = P
  split_ifs <;> omega

theorem backoff_capped_within_int64_witness :
    RateLimitClient.getWaitTime (NewRateLimitClient 0) ⟨"", "", "", ""⟩ 3 0 (fun _ => none) =
      8000000000 := by
  have h := backoff_capped_within_int64 ⟨"", "", "", ""⟩ 3 (NewRateLimitClient 0) 0
    (fun _ => none) rfl rfl (by decide) (by omega) (by decide)
  rw [h]
  decide

/-- C6 counterexample: at attempt index 34 (with the default 1 s base
backoff and `safeRate == 0`) the int64 product `baseBackoff * 2^34`
wraps negative, the 2-minute cap check fails, and the negative wrapped
value — not the claimed `min(baseBackoff * 2^34, 2 min) = 2 min` — is
returned. -/
theorem backoff_overflow_counterexample :
    RateLimitClient.getWaitTime (NewRateLimitClient 0) ⟨"", "", "", ""⟩ 34 0 (fun _ => none) =
      -1266874889709551616 ∧
    min ((NewRateLimitClient 0).BaseBackoff * 2 ^ 34) (120000000000 : Int) = 120000000000 ∧
    (-1266874889709551616 : Int) ≠ 120000000000 := by
  decide

/-- C7 (amended): a `Retry-After` value parsing to the integer 3 yields
exactly 3 seconds in every state and at every attempt index; generally a
positive parsed integer `n` yields `n` seconds provided `n` seconds fits in
an int64 (`n ≤ 9223372036` — beyond that the int64 product wraps), a parsed
integer of zero or less yields the base backoff (again provided the product
does not wrap), and a non-integer value is tried as an HTTP-date, whose
duration-until is used when positive and replaced by the base backoff
otherwise. -/
theorem retryAfter_wait (h : Headers) (attempt : Nat) (s : RateLimitClient) (now : Int)
    (pt : String → Option Int) :
    (∀ n : Int, goAtoi (goTrimSpace h.retryAfter) = some n → 0 < n →
      n * nsPerSecond < 9223372036854775808 →
      s.getWaitTime h attempt now pt = n * nsPerSecond) ∧
    (∀ n : Int, goAtoi (goTrimSpace h.retryAfter) = some n → n ≤ 0 →
      -9223372036854775808 ≤ n * nsPerSecond →
      s.getWaitTime h attempt now pt = s.BaseBackoff) ∧
    (∀ tv : Int, h.retryAfter ≠ "" → goAtoi (goTrimSpace h.retryAfter) = none →
      pt h.retryAfter = some tv →
      s.getWaitTime h attempt now pt =
        if 0 < sat64 (tv - now) then sat64 (tv - now) else s.BaseBackoff) := by
  refine ⟨?_, ?_, ?_⟩
  · intro n hp hn hfit
    have hne := retryAfter_ne_of_parse _ _ hp
    have hpos : 0 < n * nsPerSecond :=
      mul_pos hn (by norm_num [nsPerSecond])
    unfold RateLimitClient.getWaitTime
    rw [if_pos hne, hp]
    show (let d := wrap64 (n * nsPerSecond);
      if d ≤ 0 then s.BaseBackoff else d) = n * nsPerSecond
    rw [wrap64_eq_self _ (by omega) hfit]
    show (if n * nsPerSecond ≤ 0 then s.BaseBackoff else n * nsPerSecond) = n * nsPerSecond
    rw [if_neg (by omega)]
  · intro n hp hn hlo
    have hne := retryAfter_ne_of_parse _ _ hp
    have hnp : n * nsPerSecond ≤ 0 :=
      mul_nonpos_iff.mpr (Or.inr ⟨hn, by norm_num [nsPerSecond]⟩)
    unfold RateLimitClient.getWaitTime
    rw [if_pos hne, hp]
    show (let d := wrap64 (n * nsPerSecond);
      if d ≤ 0 then s.BaseBackoff else d) = s.BaseBackoff
    rw [wrap64_eq_self _ hlo (by omega)]
    show (if n * nsPerSecond ≤ 0 then s.BaseBackoff else n * nsPerSecond) = s.BaseBackoff
    rw [if_pos hnp]
  · intro tv hne hp hpt
    unfold RateLimitClient.getWaitTime
    rw [if_pos hne, hp, hpt]
    show (let d := sat64 (tv - now);
      if d ≤ 0 then s.BaseBackoff else d) =
      if 0 < sat64 (tv - now) then sat64 (tv - now) else s.BaseBackoff
    generalize sat64 (tv - now) = d
    show (if d ≤ 0 then s.BaseBackoff else d) = if 0 < d then d else s.BaseBackoff
    split_ifs <;> omega

theorem retryAfter_wait_witness :
    RateLimitClient.getWaitTime (NewRateLimitClient 0) ⟨"", "", "", "3"⟩ 5 12345
      (fun _ => none) = 3 * nsPerSecond :=
  (retryAfter_wait ⟨"", "", "", "3"⟩ 5 (NewRateLimitClient 0) 12345 (fun _ => none)).1 3
    (by decide) (by decide) (by decide)

/-- C7 counterexample: `Retry-After: 10000000000` parses to the positive
integer 10^10, but `time.Duration(10^10) * time.Second` wraps negative in
int64, so `getWaitTime` falls back to the 1 s base backoff instead of the
claimed 10^10 seconds. -/
theorem retryAfter_overflow_counterexample :
    goAtoi (goTrimSpace "10000000000") = some 10000000000 ∧
    RateLimitClient.getWaitTime (NewRateLimitClient 0) ⟨"", "", "", "10000000000"⟩ 0 0
      (fun _ => none) = 1000000000 ∧
    (1000000000 : Int) ≠ 10000000000 * 1000000000 := by
  decide

/-- C10 (amended): the 2-minute cap applies only to the exponential-backoff
branch — a server-directed wait larger than 2 minutes, in integer form
(while the product in nanoseconds fits in int64, i.e. up to 9223372036
seconds) or HTTP-date form (saturating), is honored in full; beyond the
int64 range the integer form wraps and the wrapped value is not the
requested duration. -/
theorem serverWait_uncapped (h : Headers) (attempt : Nat) (s : RateLimitClient) (now : Int)
    (pt : String → Option Int) :
    (∀ n : Int, goAtoi (goTrimSpace h.retryAfter) = some n →
      120000000000 < n * nsPerSecond → n * nsPerSecond < 9223372036854775808 →
      s.getWaitTime h attempt now pt = n * nsPerSecond) ∧
    (∀ tv : Int, h.retryAfter ≠ "" → goAtoi (goTrimSpace h.retryAfter) = none →
      pt h.retryAfter = some tv → 120000000000 < sat64 (tv - now) →
      s.getWaitTime h attempt now pt = sat64 (tv - now)) := by
  constructor
  · intro n hp hbig hfit
    have hne := retryAfter_ne_of_parse _ _ hp
    unfold RateLimitClient.getWaitTime
    rw [if_pos hne, hp]
    show (let d := wrap64 (n * nsPerSecond);
      if d ≤ 0 then s.BaseBackoff else d) = n * nsPerSecond
    rw [wrap64_eq_self _ (by omega) hfit]
    show (if n * nsPerSecond ≤ 0 then s.BaseBackoff else n * nsPerSecond) = n * nsPerSecond
    rw [if_neg (by omega)]
  · intro tv hne hp hpt hbig
    unfold RateLimitClient.getWaitTime
    rw [if_pos hne, hp, hpt]
    show (let d := sat64 (tv - now);
      if d ≤ 0 then s.BaseBackoff else d) = sat64 (tv - now)
    generalize hd : sat64 (tv - now) = d at *
    show (if d ≤ 0 then s.BaseBackoff else d) = d
    rw [if_neg (by omega)]

theorem serverWait_uncapped_witness :
    RateLimitClient.getWaitTime (NewRateLimitClient 0) ⟨"", "", "", "300"⟩ 0 0
      (fun _ => none) = 300 * nsPerSecond :=
  (serverWait_uncapped ⟨"", "", "", "300"⟩ 0 (NewRateLimitClient 0) 0 (fun _ => none)).1 300
    (by decide) (by decide) (by decide)

/-- C10 counterexample: `Retry-After: 20000000000` parses to the positive
integer 2·10^10, whose nanosecond product wraps in int64 to the positive
but wrong value 1553255926290448384 ns (about 49 years instead of the
claimed 2·10^10 seconds) — the server-directed wait is not honored in full
without bound. -/
theorem serverWait_overflow_counterexample :
    goAtoi (goTrimSpace "20000000000") = some 20000000000 ∧
    RateLimitClient.getWaitTime (NewRateLimitClient 0) ⟨"", "", "", "20000000000"⟩ 0 0
      (fun _ => none) = 1553255926290448384 ∧
    (1553255926290448384 : Int) ≠ 20000000000 * 1000000000 := by
  decide

/-- C8: the pacer computes the effective rate as `safeRate` when positive
and `dynamicRate` otherwise, treats a non-positive effective rate as 1,
sleeps exactly when the elapsed time since `lastRequestAt` is below
1 second divided by the effective rate, and — sleep or not — leaves the
state unchanged except for `lastRequestAt`, which is set to the current
time (the clock reading after the sleep).  Stated for elapsed times within
the int64 range of `time.Since`. -/
theorem pacer_spacing (s : RateLimitClient) (now : Int)
    (hlo : -9223372036854775808 ≤ now - s.LastRequest)
    (hhi : now - s.LastRequest ≤ 9223372036854775807) :
    (0 < (s.applyDynamicWait now).2 ↔
      now - s.LastRequest < nsPerSecond / effectiveRate s) ∧
    (s.applyDynamicWait now).1 =
      { s with LastRequest := now + (s.applyDynamicWait now).2 } := by
  unfold RateLimitClient.applyDynamicWait effectiveRate
  rw [sat64_eq_self _ hlo hhi]
  constructor
  · show 0 < (if now - s.LastRequest <
        nsPerSecond / (if (if s.SafeRate > 0 then s.SafeRate else s.DynamicRate) ≤ 0 then 1
          else if s.SafeRate > 0 then s.SafeRate else s.DynamicRate) then
        nsPerSecond / (if (if s.SafeRate > 0 then s.SafeRate else s.DynamicRate) ≤ 0 then 1
          else if s.SafeRate > 0 then s.SafeRate else s.DynamicRate) - (now - s.LastRequest)
      else 0) ↔ _
    generalize nsPerSecond / (if (if s.SafeRate > 0 then s.SafeRate else s.DynamicRate) ≤ 0
      then 1 else if s.SafeRate > 0 then s.SafeRate else s.DynamicRate) = m
    split_ifs with hc
    · exact ⟨fun _ => hc, fun _ => by omega⟩
    · exact ⟨fun hh => absurd hh (by omega), fun hh => absurd hh hc⟩
  · rfl

theorem pacer_spacing_witness :
    0 < (RateLimitClient.applyDynamicWait
      { NewRateLimitClient 0 with DynamicRate := 2, LastRequest := 0 } 100000000).2 ∧
    ((RateLimitClient.applyDynamicWait
      { NewRateLimitClient 0 with DynamicRate := 2, LastRequest := 0 } 100000000).1).LastRequest =
      500000000 := by
  have h := pacer_spacing { NewRateLimitClient 0 with DynamicRate := 2, LastRequest := 0 }
    100000000 (by decide) (by decide)
  exact ⟨h.1.mpr (by decide), by rw [h.2]; decide⟩

theorem doLoop_all429 (t : Nat → TransportResult) (pt : String → Option Int)
    (hall : ∀ n : Nat, ∃ hd : Headers, t n = TransportResult.ok statusTooManyRequests hd) :
    ∀ (fuel attempt : Nat) (s : RateLimitClient) (now : Int),
      (RateLimitClient.doLoop t pt fuel attempt s now).outcome = DoOutcome.exhausted ∧
      (RateLimitClient.doLoop t pt fuel attempt s now).dispatches = fuel := by
  intro fuel
  induction fuel with
  | zero => intro attempt s now; exact ⟨rfl, rfl⟩
  | succ f ih =>
    intro attempt s now
    obtain ⟨hd, ht⟩ := hall attempt
    unfold RateLimitClient.doLoop
    rw [ht]
    dsimp only
    rw [if_neg (by simp)]
    dsimp only
    constructor
    · exact (ih _ _ _).1
    · rw [(ih _ _ _).2]

theorem doLoop_first_non429 (t : Nat → TransportResult) (pt : String → Option Int)
    (st : Int) (hd : Headers) (hst : st ≠ statusTooManyRequests) :
    ∀ (j fuel attempt : Nat) (s : RateLimitClient) (now : Int), j < fuel →
      (∀ i : Nat, i < j →
        ∃ hdi : Headers, t (attempt + i) = TransportResult.ok statusTooManyRequests hdi) →
      t (attempt + j) = TransportResult.ok st hd →
      (RateLimitClient.doLoop t pt fuel attempt s now).outcome = DoOutcome.success st hd ∧
      (RateLimitClient.doLoop t pt fuel attempt s now).dispatches = j + 1 := by
  intro j
  induction j with
  | zero =>
    intro fuel attempt s now hj hpre ht
    match fuel, hj with
    | Nat.succ f, _ =>
      rw [Nat.add_zero] at ht
      unfold RateLimitClient.doLoop
      rw [ht]
      dsimp only
      rw [if_pos hst]
      exact ⟨rfl, rfl⟩
  | succ jj ih =>
    intro fuel attempt s now hj hpre ht
    match fuel, hj with
    | Nat.succ f, _ =>
      obtain ⟨hd0, ht0⟩ := hpre 0 (Nat.succ_pos jj)
      rw [Nat.add_zero] at ht0
      unfold RateLimitClient.doLoop
      rw [ht0]
      dsimp only
      rw [if_neg (by simp)]
      dsimp only
      have hpre' : ∀ i : Nat, i < jj →
          ∃ hdi : Headers, t (attempt + 1 + i) = TransportResult.ok statusTooManyRequests hdi := by
        intro i hi
        have e : attempt + 1 + i = attempt + (i + 1) := by omega
        rw [e]
        exact hpre (i + 1) (by omega)
      have ht' : t (attempt + 1 + jj) = TransportResult.ok st hd := by
        have e : attempt + 1 + jj = attempt + (jj + 1) := by omega
        rw [e]
        exact ht
      constructor
      · exact (ih f (attempt + 1) _ _ (by omega) hpre' ht').1
      · rw [(ih f (attempt + 1) _ _ (by omega) hpre' ht').2]

theorem doLoop_err_at (t : Nat → TransportResult) (pt : String → Option Int) :
    ∀ (j fuel attempt : Nat) (s : RateLimitClient) (now : Int), j < fuel →
      (∀ i : Nat, i < j →
        ∃ hdi : Headers, t (attempt + i) = TransportResult.ok statusTooManyRequests hdi) →
      t (attempt + j) = TransportResult.err →
      (RateLimitClient.doLoop t pt fuel attempt s now).outcome = DoOutcome.transportErr ∧
      (RateLimitClient.doLoop t pt fuel attempt s now).dispatches = j + 1 := by
  intro j
  induction j with
  | zero =>
    intro fuel attempt s now hj hpre ht
    match fuel, hj with
    | Nat.succ f, _ =>
      rw [Nat.add_zero] at ht
      unfold RateLimitClient.doLoop
      rw [ht]
      exact ⟨rfl, rfl⟩
  | succ jj ih =>
    intro fuel attempt s now hj hpre ht
    match fuel, hj with
    | Nat.succ f, _ =>
      obtain ⟨hd0, ht0⟩ := hpre 0 (Nat.succ_pos jj)
      rw [Nat.add_zero] at ht0
      unfold RateLimitClient.doLoop
      rw [ht0]
      dsimp only
      rw [if_neg (by simp)]
      dsimp only
      have hpre' : ∀ i : Nat, i < jj →
          ∃ hdi : Headers, t (attempt + 1 + i) = TransportResult.ok statusTooManyRequests hdi := by
        intro i hi
        have e : attempt + 1 + i = attempt + (i + 1) := by omega
        rw [e]
        exact hpre (i + 1) (by omega)
      have ht' : t (attempt + 1 + jj) = TransportResult.err := by
        have e : attempt + 1 + jj = attempt + (jj + 1) := by omega
        rw [e]
        exact ht
      constructor
      · exact (ih f (attempt + 1) _ _ (by omega) hpre' ht').1
      · rw [(ih f (attempt + 1) _ _ (by omega) hpre' ht').2]

theorem Do_eq_doLoop (s : RateLimitClient) (t : Nat → TransportResult)
    (pt : String → Option Int) (now : Int) :
    ∃ (s1 : RateLimitClient) (now2 : Int),
      RateLimitClient.Do s t pt now =
        RateLimitClient.doLoop t pt (s.MaxRetries + 1).toNat 0 s1 now2 :=
  ⟨_, _, rfl⟩

/-- C3: with `maxRetries = 5`, a transport whose responses are all
throttled makes `Do` dispatch exactly 6 attempts and return the
retries-exhausted error (which carries no response); and whenever the first
non-throttled response occurs at an attempt index within the retry budget,
`Do` returns exactly that response, having dispatched exactly the attempts
up to and including it. -/
theorem execute_retry_bound (t : Nat → TransportResult) (pt : String → Option Int)
    (s : RateLimitClient) (now : Int) (hmr : s.MaxRetries = 5) :
    ((∀ n : Nat, ∃ hd : Headers, t n = TransportResult.ok statusTooManyRequests hd) →
      (RateLimitClient.Do s t pt now).outcome = DoOutcome.exhausted ∧
      (RateLimitClient.Do s t pt now).dispatches = 6) ∧
    (∀ (j : Nat) (st : Int) (hd : Headers),
      (∀ i : Nat, i < j →
        ∃ hdi : Headers, t i = TransportResult.ok statusTooManyRequests hdi) →
      t j = TransportResult.ok st hd → st ≠ statusTooManyRequests → j ≤ 5 →
      (RateLimitClient.Do s t pt now).outcome = DoOutcome.success st hd ∧
      (RateLimitClient.Do s t pt now).dispatches = j + 1) := by
  obtain ⟨s1, now2, hEq⟩ := Do_eq_doLoop s t pt now
  rw [hmr] at hEq
  rw [show ((5 : Int) + 1).toNat = 6 from rfl] at hEq
  constructor
  · intro hall
    rw [hEq]
    exact doLoop_all429 t pt hall 6 0 s1 now2
  · intro j st hd hpre ht hst hj
    rw [hEq]
    exact doLoop_first_non429 t pt st hd hst j 6 0 s1 now2 (by omega)
      (fun i hi => by simpa using hpre i hi) (by simpa using ht)

theorem execute_retry_bound_witness :
    (RateLimitClient.Do (NewRateLimitClient 0)
      (fun _ => TransportResult.ok statusTooManyRequests ⟨"", "", "", ""⟩)
      (fun _ => none) 0).dispatches = 6 ∧
    (RateLimitClient.Do (NewRateLimitClient 0)
      (fun n => if n < 2 then TransportResult.ok statusTooManyRequests ⟨"", "", "", ""⟩
        else TransportResult.ok 200 ⟨"", "", "", ""⟩) (fun _ => none) 0).outcome =
      DoOutcome.success 200 ⟨"", "", "", ""⟩ := by
  constructor
  · exact ((execute_retry_bound _ _ _ 0 rfl).1 (fun n => ⟨⟨"", "", "", ""⟩, rfl⟩)).2
  · exact ((execute_retry_bound _ _ _ 0 rfl).2 2 200 ⟨"", "", "", ""⟩
      (fun i hi => ⟨⟨"", "", "", ""⟩, if_pos hi⟩) rfl (by decide) (by omega)).1

/-- C4: if the transport fails with a transport-level error at some attempt
(possibly after earlier throttled responses, as long as it is within the
retry budget), `Do` aborts immediately with that error, no response, and no
further dispatches; in particular a transport that fails every call is
dispatched exactly once. -/
theorem execute_transport_error_aborts (t : Nat → TransportResult) (pt : String → Option Int)
    (s : RateLimitClient) (now : Int) (j : Nat)
    (hpre : ∀ i : Nat, i < j →
      ∃ hdi : Headers, t i = TransportResult.ok statusTooManyRequests hdi)
    (herr : t j = TransportResult.err)
    (hj : (j : Int) ≤ s.MaxRetries) :
    (RateLimitClient.Do s t pt now).outcome = DoOutcome.transportErr ∧
    (RateLimitClient.Do s t pt now).dispatches = j + 1 := by
  obtain ⟨s1, now2, hEq⟩ := Do_eq_doLoop s t pt now
  rw [hEq]
  exact doLoop_err_at t pt j (s.MaxRetries + 1).toNat 0 s1 now2 (by omega)
    (fun i hi => by simpa using hpre i hi) (by simpa using herr)

theorem execute_transport_error_aborts_witness :
    (RateLimitClient.Do (NewRateLimitClient 0) (fun _ => TransportResult.err)
      (fun _ => none) 0).outcome = DoOutcome.transportErr ∧
    (RateLimitClient.Do (NewRateLimitClient 0) (fun _ => TransportResult.err)
      (fun _ => none) 0).dispatches = 1 :=
  execute_transport_error_aborts _ _ _ 0 0 (fun i hi => absurd hi (Nat.not_lt_zero i)) rfl
    (by decide)
